import Mathlib

/-!
# The HappyUC full-node service (`huc/backend.go`, `huc/api_backend.go`)

A shallow embedding of the node service and of its query backend.

* The node is a record of the fields of the Go struct that the embedded
  methods read or write.  Calls made on collaborators (bloom indexer, chain,
  protocol manager, transaction pool, miner, event mux, database, consensus
  engine) are recorded, in program order, in the `trace` field.
* A Go `error` is its message; a nil error is `none`.
* A pointer that can be nil is an `Option`; a call that uses a nil pointer,
  or closes a closed channel, ends in a panic, which the result types of
  `Stop` and of the query backend record.
* Logging and the read/write lock around the coinbase are left out: the
  methods are embedded as run by one caller at a time.
* Go `int` and `rpc.BlockNumber` are 64-bit signed integers: `Int` with the
  wrap-around written out where an operation can leave the range.
-/

namespace Huc

/-! ## Basic types -/

/-- A `common.Address`; the zero value `common.Address{}` is `0`. -/
abbrev Address := Nat

/-- A `common.Hash`. -/
abbrev Hash := Nat

/-- A Go `error` value, identified with its message. -/
abbrev Error := String

/-- A Go `byte`. -/
abbrev Byte := Fin 256

/-- Result of Go's signed 64-bit subtraction/addition: wrap into `[-2^63, 2^63)`. -/
def wrapInt (x : Int) : Int := (x + 2 ^ 63) % 2 ^ 64 - 2 ^ 63

/-- The conversion `uint64(x)` of a signed 64-bit integer. -/
def toUint64 (x : Int) : Nat := (x % 2 ^ 64).toNat

/-- An `accounts.Account`. -/
structure Account where
  Address : Address
deriving DecidableEq, Repr

/-- An `accounts.Wallet`: its URL and the accounts it currently holds. -/
structure Wallet where
  URL : Nat
  accounts : List Account
deriving DecidableEq, Repr

/-- The accessor `Wallet.Accounts()`. -/
def Wallet.Accounts (w : Wallet) : List Account := w.accounts

/-- The `accounts.Manager`: the wallets it enumerates and its `Find` lookup,
which answers with a wallet (possibly nil) and an error (possibly nil). -/
structure Manager where
  wallets : List Wallet
  find : Account → Option Wallet × Option Error

/-- The accessor `Manager.Wallets()`. -/
def Manager.Wallets (am : Manager) : List Wallet := am.wallets

/-- The accessor `Manager.Find(account)`. -/
def Manager.Find (am : Manager) (a : Account) : Option Wallet × Option Error := am.find a

/-! ## Consensus engines -/

/-- A `params.CliqueConfig`. -/
structure CliqueConfig where
  Period : Nat
  Epoch : Nat
deriving DecidableEq, Repr

/-- A `params.ChainConfig`, reduced to the field read here: the Clique
configuration, nil unless the chain is proof-of-authority. -/
structure ChainConfig where
  Clique : Option CliqueConfig
deriving DecidableEq, Repr

/-- The chain database handle (`hucdb.Database`). -/
abbrev Database := Nat

/-- An `ethash.Mode` (a Go `uint`). -/
abbrev Mode := Nat

/-- Modelled from the spec: the `ethash` mode constants are declared outside
the files embedded here.  The decision table names the modes fake, test and
shared, every other value selecting the default row; the constants are
pairwise distinct values of the `ethash` package, the zero value of a mode
being none of them.  This one is the mode of the shared engine. -/
def ModeShared : Mode := 1

/-- Modelled from the spec: the mode of the reduced-difficulty test engine. -/
def ModeTest : Mode := 2

/-- Modelled from the spec: the mode of the always-succeeds engine. -/
def ModeFake : Mode := 3

/-- An `ethash.Config`. -/
structure EthashConfig where
  CacheDir : String
  CachesInMem : Int
  CachesOnDisk : Int
  DatasetDir : String
  DatasetsInMem : Int
  DatasetsOnDisk : Int
  PowMode : Mode
deriving DecidableEq, Repr

/-- A `node.ServiceContext`, reduced to its path resolver, to what its
`OpenDatabase(name, cache, handles)` answers, and to its account manager. -/
structure ServiceContext where
  ResolvePath : String → String
  OpenDatabase : String → Int → Int → Except Error Database := fun _ _ _ => .ok 0
  AccountManager : Manager := { wallets := [], find := fun _ => (none, none) }

/-- The engine values `CreateConsensusEngine` can build, one constructor per
constructor call of the source. -/
inductive Engine
  /-- The result of `clique.New(config, db)`. -/
  | clique (config : CliqueConfig) (db : Database)
  /-- The result of `ethash.NewFaker()`. -/
  | faker
  /-- The result of `ethash.NewTester()`. -/
  | tester
  /-- The result of `ethash.NewShared()`. -/
  | shared
  /-- The result of `ethash.New(config)` followed by `SetThreads(threads)`. -/
  | ethash (config : EthashConfig) (threads : Int)
deriving DecidableEq, Repr

/-- The type assertion `engine.(*clique.Clique)`. -/
def Engine.isClique : Engine → Bool
  | .clique _ _ => true
  | _ => false

/-- The function `CreateConsensusEngine` of `backend.go`. -/
def CreateConsensusEngine (ctx : ServiceContext) (config : EthashConfig)
    (chainConfig : ChainConfig) (db : Database) : Engine :=
  -- If proof-of-authority is requested, set it up
  match chainConfig.Clique with
  | some cliqueConfig => Engine.clique cliqueConfig db
  | none =>
    -- Otherwise assume proof-of-work
    if config.PowMode = ModeFake then Engine.faker
    else if config.PowMode = ModeTest then Engine.tester
    else if config.PowMode = ModeShared then Engine.shared
    else
      Engine.ethash
        { CacheDir := ctx.ResolvePath config.CacheDir
          CachesInMem := config.CachesInMem
          CachesOnDisk := config.CachesOnDisk
          DatasetDir := config.DatasetDir
          DatasetsInMem := config.DatasetsInMem
          DatasetsOnDisk := config.DatasetsOnDisk
          PowMode := 0 }
        (-1)

/-! ## Chain data and the collaborators the query backend reads -/

/-- A `types.Header`, reduced to its state root and its other content. -/
structure Header where
  Number : Nat
  Root : Hash
  Extra : Nat
deriving DecidableEq, Repr

/-- A `types.Block`: a header and a body. -/
structure Block where
  header : Header
  body : Nat
deriving DecidableEq, Repr

/-- The accessor `Block.Header()` on a block that is there. -/
def Block.Header (b : Block) : Header := b.header

/-- How a call of the query backend ends: it returns its results, or the
goroutine panics. -/
inductive Result (α : Type) where
  | returned (val : α)
  | panicked (msg : String)
deriving DecidableEq, Repr

/-- The message of Go's run-time panic on the use of a nil pointer. -/
def nilDereference : String :=
  "runtime error: invalid memory address or nil pointer dereference"

/-- The method call `block.Header()` on a `*types.Block`, nil being `none`:
the method reads the header field of the block, so that on a nil block the
call panics. -/
def headerOf : Option Block → Result Header
  | some block => Result.returned block.Header
  | none => Result.panicked nilDereference

/-- A `state.StateDB` handle. -/
abbrev StateDB := Nat

/-- The accessors of `core.BlockChain` the backend calls.  Each answers with
a pointer, nil being `none`; header lookup and block lookup are separate
stores in the chain. -/
structure BlockChain where
  currentBlock : Option Block
  getHeaderByNumber : Nat → Option Header
  getBlockByNumber : Nat → Option Block
  stateAt : Hash → Option StateDB × Option Error

/-- The accessor `BlockChain.CurrentBlock()`. -/
def BlockChain.CurrentBlock (bc : BlockChain) : Option Block := bc.currentBlock

/-- The accessor `BlockChain.GetHeaderByNumber(number)`. -/
def BlockChain.GetHeaderByNumber (bc : BlockChain) (number : Nat) : Option Header :=
  bc.getHeaderByNumber number

/-- The accessor `BlockChain.GetBlockByNumber(number)`. -/
def BlockChain.GetBlockByNumber (bc : BlockChain) (number : Nat) : Option Block :=
  bc.getBlockByNumber number

/-- The accessor `BlockChain.StateAt(root)`. -/
def BlockChain.StateAt (bc : BlockChain) (root : Hash) : Option StateDB × Option Error :=
  bc.stateAt root

/-- The accessors of `miner.Miner` the backend calls: the speculative block,
and the speculative block together with its state.  Each is a pointer, nil
being `none`. -/
structure Miner where
  pendingBlock : Option Block
  pending : Option Block × Option StateDB

/-- The accessor `Miner.PendingBlock()`. -/
def Miner.PendingBlock (m : Miner) : Option Block := m.pendingBlock

/-- The accessor `Miner.Pending()`. -/
def Miner.Pending (m : Miner) : Option Block × Option StateDB := m.pending

/-! ## The node service -/

/-- A `downloader.SyncMode` (a Go `int`). -/
abbrev SyncMode := Int

/-- Modelled from the spec: the `downloader` package is outside the files
embedded here.  This is the sync mode that is disallowed for the full node,
the last of the three recognised modes full, fast and light. -/
def LightSync : SyncMode := 2

/-- Modelled from the spec: `SyncMode.IsValid()`, true of the recognised sync
modes full, fast and light. -/
def SyncMode.IsValid (mode : SyncMode) : Bool := decide (0 ≤ mode ∧ mode ≤ LightSync)

/-- The `huc.Config` fields read by the embedded methods.  `Genesis` is the
genesis specification (nil when none is given), `GasPrice` and `GPODefault`
are the `*big.Int` prices (nil when unset), `TxPoolJournal` is
`TxPool.Journal`. -/
structure Config where
  LightServ : Int
  LightPeers : Int
  SyncMode : SyncMode := 0
  NetworkId : Nat := 1
  Genesis : Option Nat := none
  Ethash : EthashConfig :=
    { CacheDir := "", CachesInMem := 0, CachesOnDisk := 0, DatasetDir := "",
      DatasetsInMem := 0, DatasetsOnDisk := 0, PowMode := 0 }
  SkipBcVersionCheck : Bool := false
  DatabaseCache : Int := 0
  DatabaseHandles : Int := 0
  Coinbase : Address := 0
  ExtraData : List Byte := []
  GasPrice : Option Nat := none
  GPODefault : Option Nat := none
  TxPoolJournal : String := ""
deriving DecidableEq, Repr

/-- A `p2p.Server`, reduced to its peer limit. -/
structure Server where
  MaxPeers : Int
deriving DecidableEq, Repr

/-- A Go channel, as far as `close` can tell: closed or not. -/
structure Chan where
  closed : Bool
deriving DecidableEq, Repr

/-- Go's builtin `close`: `none` is the run-time panic raised on a channel
that is already closed. -/
def Chan.close (c : Chan) : Option Chan :=
  if c.closed then none else some { closed := true }

/-- The calls the node service makes on its collaborators. -/
inductive Effect
  /-- The call `s.stopDbUpgrade()` -/
  | stopDbUpgrade
  /-- The call `s.bloomIndexer.Close()` -/
  | bloomIndexerClose
  /-- The call `s.blockchain.Stop()` -/
  | blockchainStop
  /-- The call `s.protocolManager.Stop()` -/
  | protocolManagerStop
  /-- The call `s.lesServer.Stop()` -/
  | lesServerStop
  /-- The call `s.txPool.Stop()` -/
  | txPoolStop
  /-- The call `s.miner.Stop()` -/
  | minerStop
  /-- The call `s.eventMux.Stop()` -/
  | eventMuxStop
  /-- The call `s.chainDb.Close()` -/
  | chainDbClose
  /-- The call `close(s.shutdownChan)`, when it does not panic -/
  | closeShutdownChan
  /-- The call `s.startBloomHandlers()` -/
  | startBloomHandlers
  /-- The call `s.protocolManager.Start(maxPeers)` -/
  | protocolManagerStart (maxPeers : Int)
  /-- The call `s.lesServer.Start(srvr)` -/
  | lesServerStart (srvr : Server)
  /-- The call `clique.Authorize(eb, wallet.SignHash)` -/
  | cliqueAuthorize (eb : Address) (wallet : Wallet)
  /-- The call `go s.miner.Start(eb)` -/
  | minerStart (eb : Address)
  /-- The call `upgradeDeduplicateData(chainDb)` -/
  | upgradeDeduplicateData
  /-- The call `core.SetupGenesisBlock(chainDb, config.Genesis)` -/
  | setupGenesisBlock
  /-- The call `core.WriteBlockChainVersion(chainDb, vsn)` -/
  | writeBlockChainVersion (vsn : Nat)
  /-- The call `core.NewBlockChain(chainDb, cacheConfig, chainConfig, engine, vmConfig)` -/
  | newBlockChain
  /-- The call `eth.blockchain.SetHead(head)` -/
  | blockchainSetHead (head : Nat)
  /-- The call `core.WriteChainConfig(chainDb, hash, cfg)` -/
  | writeChainConfig (hash : Hash) (cfg : ChainConfig)
  /-- The call `eth.bloomIndexer.Start(eth.blockchain)` -/
  | bloomIndexerStart
  /-- The call `core.NewTxPool(config.TxPool, chainConfig, blockchain)` -/
  | newTxPool (journal : String)
  /-- The call `NewProtocolManager(...)` -/
  | newProtocolManager
  /-- The call `miner.New(eth, chainConfig, eventMux, engine)` -/
  | newMiner
  /-- The call `eth.miner.SetExtra(extra)` -/
  | minerSetExtra (extra : List Byte)
  /-- The call `gasprice.NewOracle(eth.ApiBackend, gpoParams)`, with the
  default price of `gpoParams` -/
  | newOracle (default : Option Nat)
deriving DecidableEq, Repr

/-- The `HappyUC` struct: the fields the embedded methods read or write, the
`acceptTxs` word of its protocol manager, and the trace of collaborator
calls made so far. -/
structure HappyUC where
  config : Config
  chainConfig : ChainConfig
  /-- Channel for shutting down the service. -/
  shutdownChan : Chan
  /-- The cancel function of the database upgrade, nil when absent. -/
  stopDbUpgrade : Option Nat
  /-- The attached light server, nil when absent. -/
  lesServer : Option Nat
  engine : Engine
  accountManager : Manager
  blockchain : BlockChain
  miner : Miner
  coinbase : Address
  networkId : Nat
  netRPCService : Option (Server × Nat)
  /-- The word `protocolManager.acceptTxs`. -/
  acceptTxs : Nat
  trace : List Effect

/-- Record one collaborator call. -/
def HappyUC.emit (s : HappyUC) (e : Effect) : HappyUC :=
  { s with trace := s.trace ++ [e] }

/-- The accessor `HappyUC.NetVersion()`. -/
def HappyUC.NetVersion (s : HappyUC) : Nat := s.networkId

/-- The accessor `HappyUC.AccountManager()`. -/
def HappyUC.AccountManager (s : HappyUC) : Manager := s.accountManager

/-- The accessor `HappyUC.BlockChain()`. -/
def HappyUC.BlockChain (s : HappyUC) : BlockChain := s.blockchain

/-- How a call ends: it returns its error value, or the goroutine panics. -/
inductive Completion
  | returned (err : Option Error)
  | panicked (msg : String)
deriving DecidableEq, Repr

/-- The method `HappyUC.Stop` of `backend.go`. -/
def Stop (s : HappyUC) : HappyUC × Completion := Id.run do
  let mut s := s
  if s.stopDbUpgrade ≠ none then
    s := s.emit .stopDbUpgrade
  s := s.emit .bloomIndexerClose
  s := s.emit .blockchainStop
  s := s.emit .protocolManagerStop
  if s.lesServer ≠ none then
    s := s.emit .lesServerStop
  s := s.emit .txPoolStop
  s := s.emit .minerStop
  s := s.emit .eventMuxStop
  s := s.emit .chainDbClose
  match s.shutdownChan.close with
  | none => return (s, .panicked "close of closed channel")
  | some c =>
    s := { s with shutdownChan := c }.emit .closeShutdownChan
    return (s, .returned none)

/-- The message of the error `Start` builds with `fmt.Errorf`. -/
def invalidPeerConfig (lightPeers maxPeers : Int) : Error :=
  "invalid peer config: light peer count (" ++ toString lightPeers ++
    ") >= total peer count (" ++ toString maxPeers ++ ")"

/-- The method `HappyUC.Start` of `backend.go`. -/
def Start (s : HappyUC) (srvr : Server) : HappyUC × Option Error := Id.run do
  let mut s := s
  -- Start the bloom bits servicing goroutines
  s := s.emit .startBloomHandlers
  -- Start the RPC service
  s := { s with netRPCService := some (srvr, s.NetVersion) }
  -- Figure out a max peers count based on the server limits
  let mut maxPeers := srvr.MaxPeers
  if s.config.LightServ > 0 then
    if s.config.LightPeers ≥ srvr.MaxPeers then
      return (s, some (invalidPeerConfig s.config.LightPeers srvr.MaxPeers))
    maxPeers := wrapInt (maxPeers - s.config.LightPeers)
  -- Start the networking layer and the light server if requested
  s := s.emit (.protocolManagerStart maxPeers)
  if s.lesServer ≠ none then
    s := s.emit (.lesServerStart srvr)
  return (s, none)

/-- The error `Coinbase` builds when no coinbase can be chosen. -/
def errCoinbaseRequired : Error := "coinbase must be explicitly specified"

/-- The method `HappyUC.Coinbase` of `backend.go`: the node afterwards, the address and
the error returned. -/
def Coinbase (s : HappyUC) : HappyUC × Address × Option Error := Id.run do
  let coinbase := s.coinbase
  if coinbase ≠ 0 then
    return (s, coinbase, none)
  match s.AccountManager.Wallets with
  | [] => pure ()
  | wallet0 :: _ =>
    match wallet0.Accounts with
    | [] => pure ()
    | account0 :: _ =>
      let coinbase := account0.Address
      return ({ s with coinbase := coinbase }, coinbase, none)
  return (s, 0, some errCoinbaseRequired)

/-- Formatting of an error value by the verb `%v`. -/
def fmtV : Option Error → String
  | none => "<nil>"
  | some e => e

/-- The method `HappyUC.StartMining` of `backend.go`. -/
def StartMining (s : HappyUC) (local_ : Bool) : HappyUC × Option Error := Id.run do
  let (s1, eb, err) := Coinbase s
  let mut s := s1
  if let some e := err then
    return (s, some ("coinbase missing: " ++ e))
  if s.engine.isClique then
    let (wallet, err) := s.accountManager.Find { Address := eb }
    -- wallet == nil || err != nil
    match wallet, err with
    | some w, none => s := s.emit (.cliqueAuthorize eb w)
    | _, _ => return (s, some ("signer missing: " ++ fmtV err))
  if local_ then
    s := { s with acceptTxs := 1 }
  s := s.emit (.minerStart eb)
  return (s, none)

/-! ## The query backend (`api_backend.go`) -/

/-- An `rpc.BlockNumber`: a signed 64-bit integer. -/
abbrev BlockNumber := Int

/-- Modelled from the spec: the `rpc` constants are declared outside the files
embedded here.  The reference to the miner's speculative block is a tag
distinct from every height; it is the negative value of the `rpc` package. -/
def PendingBlockNumber : BlockNumber := -2

/-- Modelled from the spec: the reference to the canonical head, a tag distinct
from every height and from the pending tag. -/
def LatestBlockNumber : BlockNumber := -1

/-- The abstract block reference of the specification. -/
inductive BlockRef
  | Latest
  | Pending
  | Numbered (n : Nat)
deriving DecidableEq, Repr

/-- The `rpc.BlockNumber` that stands for a block reference. -/
def BlockRef.toBlockNumber : BlockRef → BlockNumber
  | .Latest => LatestBlockNumber
  | .Pending => PendingBlockNumber
  | .Numbered n => (n : Int)

/-- The `EthApiBackend` struct (the gas-price oracle is not read here). -/
structure EthApiBackend where
  huc : HappyUC

/-- The method `EthApiBackend.HeaderByNumber` of `api_backend.go`.  The
pending and the latest branch call `Header()` on the block they are handed
without testing it for nil. -/
def HeaderByNumber (b : EthApiBackend) (blockNr : BlockNumber) :
    Result (Option Header × Option Error) :=
  -- Pending block is only known by the miner
  if blockNr = PendingBlockNumber then
    let block := b.huc.miner.PendingBlock
    match headerOf block with
    | .panicked msg => .panicked msg
    | .returned header => .returned (some header, none)
  -- Otherwise resolve and return the block
  else if blockNr = LatestBlockNumber then
    match headerOf b.huc.blockchain.CurrentBlock with
    | .panicked msg => .panicked msg
    | .returned header => .returned (some header, none)
  else
    .returned (b.huc.blockchain.GetHeaderByNumber (toUint64 blockNr), none)

/-- The method `EthApiBackend.BlockByNumber` of `api_backend.go`.  It hands
on the pointer it is given and uses none, so it always returns. -/
def BlockByNumber (b : EthApiBackend) (blockNr : BlockNumber) : Option Block × Option Error :=
  -- Pending block is only known by the miner
  if blockNr = PendingBlockNumber then
    let block := b.huc.miner.PendingBlock
    (block, none)
  -- Otherwise resolve and return the block
  else if blockNr = LatestBlockNumber then
    (b.huc.blockchain.CurrentBlock, none)
  else
    (b.huc.blockchain.GetBlockByNumber (toUint64 blockNr), none)

/-- The method `EthApiBackend.StateAndHeaderByNumber` of `api_backend.go`.  The
pending branch calls `Header()` on the miner's block without testing it for
nil; a panic of `HeaderByNumber` is a panic of this method. -/
def StateAndHeaderByNumber (b : EthApiBackend) (blockNr : BlockNumber) :
    Result (Option StateDB × Option Header × Option Error) :=
  -- Pending state is only known by the miner
  if blockNr = PendingBlockNumber then
    let (block, state) := b.huc.miner.Pending
    match headerOf block with
    | .panicked msg => .panicked msg
    | .returned header => .returned (state, some header, none)
  else
    -- Otherwise resolve the block number and return its state
    match HeaderByNumber b blockNr with
    | .panicked msg => .panicked msg
    | .returned (header, err) =>
      -- header == nil || err != nil
      match header, err with
      | some header, none =>
        let (stateDb, err) := b.huc.BlockChain.StateAt header.Root
        .returned (stateDb, some header, err)
      | _, _ => .returned (none, none, err)

/-! ## Construction (`New`, `makeExtraData`, `CreateDB`) -/

/-- The function `makeExtraData` of `backend.go`.  `defaultExtra` is the RLP
encoding of the client version, the client name, the Go version and the
operating system, which the function builds when `extra` is empty;
`maximumExtraDataSize` is `params.MaximumExtraDataSize`.  A nil slice is the
empty list. -/
def makeExtraData (maximumExtraDataSize : Nat) (defaultExtra : List Byte) (extra : List Byte) :
    List Byte := Id.run do
  let mut extra := extra
  if extra.length = 0 then
    -- create default extradata
    extra := defaultExtra
  if extra.length > maximumExtraDataSize then
    extra := []
  return extra

/-- The function `CreateDB` of `backend.go`. -/
def CreateDB (ctx : ServiceContext) (config : Config) (name : String) : Except Error Database :=
  match ctx.OpenDatabase name config.DatabaseCache config.DatabaseHandles with
  | .error err => .error err
  | .ok db => .ok db

/-- A `params.ConfigCompatError`: what mismatches, and the block number the
chain must be rewound to. -/
structure ConfigCompatError where
  What : String
  RewindTo : Nat
deriving DecidableEq, Repr

/-- The error values `core.SetupGenesisBlock` can return: a
`*params.ConfigCompatError`, or an error of another type. -/
inductive GenesisErr
  | configCompat (compat : ConfigCompatError)
  | other (err : Error)
deriving DecidableEq, Repr

/-- The error itself, as a value of the interface `error`. -/
def GenesisErr.toError : GenesisErr → Error
  | .configCompat compat => "mismatching " ++ compat.What ++ " in database"
  | .other err => err

/-- The type assertion `genesisErr.(*params.ConfigCompatError)`. -/
def asConfigCompat : Option GenesisErr → Option ConfigCompatError
  | some (.configCompat compat) => some compat
  | _ => none

/-- What the packages called by `New` answer: the database upgrade, the
genesis setup, the stored and the current database version, the chain, the
rewound chain, the protocol manager (its word `acceptTxs`), the miner, and the
two values `makeExtraData` depends on. -/
structure Packages where
  upgradeDeduplicateData : Database → Option Nat
  SetupGenesisBlock : Database → Option Nat → ChainConfig × Hash × Option GenesisErr
  GetBlockChainVersion : Database → Nat
  BlockChainVersion : Nat
  NewBlockChain : Database → ChainConfig → Engine → Except Error BlockChain
  SetHead : BlockChain → Nat → BlockChain
  NewProtocolManager : ChainConfig → SyncMode → Nat → Except Error Nat
  NewMiner : ChainConfig → Engine → Miner
  MaximumExtraDataSize : Nat
  defaultExtra : List Byte

/-- What `New` returns, a node or an error, with the calls it made on the
way. -/
structure Construction where
  calls : List Effect
  eth : Option HappyUC
  err : Option Error

/-- The message of the database-version error `New` builds with `fmt.Errorf`. -/
def versionMismatch (bcVersion current : Nat) : Error :=
  "Blockchain DB version mismatch (" ++ toString bcVersion ++ " / " ++ toString current ++
    "). Run ghuc upgradedb.\n"

/-- The function `New` of `backend.go`. -/
def New (ctx : ServiceContext) (config : Config) (pkg : Packages) : Construction := Id.run do
  let mut calls : List Effect := []
  let mut config := config
  if config.SyncMode = LightSync then
    return ⟨calls, none, some "can't run eth.HappyUC in light sync mode, use les.LightHappyUC"⟩
  if ¬ config.SyncMode.IsValid then
    return ⟨calls, none, some ("invalid sync mode " ++ toString config.SyncMode)⟩
  match CreateDB ctx config "chaindata" with
  | .error err => return ⟨calls, none, some err⟩
  | .ok chainDb =>
    let stopDbUpgrade := pkg.upgradeDeduplicateData chainDb
    calls := calls ++ [.upgradeDeduplicateData]
    let (chainConfig, genesisHash, genesisErr) := pkg.SetupGenesisBlock chainDb config.Genesis
    calls := calls ++ [.setupGenesisBlock]
    if genesisErr ≠ none ∧ asConfigCompat genesisErr = none then
      return ⟨calls, none, genesisErr.map GenesisErr.toError⟩
    let engine := CreateConsensusEngine ctx config.Ethash chainConfig chainDb
    if ¬ config.SkipBcVersionCheck then
      let bcVersion := pkg.GetBlockChainVersion chainDb
      if bcVersion ≠ pkg.BlockChainVersion ∧ bcVersion ≠ 0 then
        return ⟨calls, none, some (versionMismatch bcVersion pkg.BlockChainVersion)⟩
      calls := calls ++ [.writeBlockChainVersion pkg.BlockChainVersion]
    calls := calls ++ [.newBlockChain]
    match pkg.NewBlockChain chainDb chainConfig engine with
    | .error err => return ⟨calls, none, some err⟩
    | .ok chain =>
      let mut blockchain := chain
      -- Rewind the chain in case of an incompatible config upgrade.
      if let some compat := asConfigCompat genesisErr then
        blockchain := pkg.SetHead blockchain compat.RewindTo
        calls := calls ++ [.blockchainSetHead compat.RewindTo]
        calls := calls ++ [.writeChainConfig genesisHash chainConfig]
      calls := calls ++ [.bloomIndexerStart]
      if config.TxPoolJournal ≠ "" then
        config := { config with TxPoolJournal := ctx.ResolvePath config.TxPoolJournal }
      calls := calls ++ [.newTxPool config.TxPoolJournal]
      calls := calls ++ [.newProtocolManager]
      match pkg.NewProtocolManager chainConfig config.SyncMode config.NetworkId with
      | .error err => return ⟨calls, none, some err⟩
      | .ok acceptTxs =>
        let miner := pkg.NewMiner chainConfig engine
        calls := calls ++ [.newMiner]
        calls := calls ++
          [.minerSetExtra (makeExtraData pkg.MaximumExtraDataSize pkg.defaultExtra config.ExtraData)]
        let mut gpoDefault := config.GPODefault
        if gpoDefault = none then
          gpoDefault := config.GasPrice
        calls := calls ++ [.newOracle gpoDefault]
        let eth : HappyUC :=
          { config := config
            chainConfig := chainConfig
            shutdownChan := { closed := false }
            stopDbUpgrade := stopDbUpgrade
            lesServer := none
            engine := engine
            accountManager := ctx.AccountManager
            blockchain := blockchain
            miner := miner
            coinbase := config.Coinbase
            networkId := config.NetworkId
            netRPCService := none
            acceptTxs := acceptTxs
            trace := calls }
        return ⟨calls, some eth, none⟩

/-! ## Sample nodes -/

/-- A chain holding the three blocks of heights 0, 1 and 2, head at 2. -/
def sampleChain : BlockChain where
  currentBlock := some { header := { Number := 2, Root := 102, Extra := 0 }, body := 2 }
  getHeaderByNumber := fun n =>
    if n < 3 then some { Number := n, Root := 100 + n, Extra := 0 } else none
  getBlockByNumber := fun n =>
    if n < 3 then some { header := { Number := n, Root := 100 + n, Extra := 0 }, body := n }
    else none
  stateAt := fun root =>
    if 100 ≤ root ∧ root < 103 then (some root, none) else (none, some "missing trie node")

/-- A miner whose speculative block is at height 3. -/
def sampleMiner : Miner where
  pendingBlock := some { header := { Number := 3, Root := 203, Extra := 7 }, body := 33 }
  pending := (some { header := { Number := 3, Root := 203, Extra := 7 }, body := 33 }, some 203)

/-- An account manager without wallets. -/
def noWallets : Manager where
  wallets := []
  find := fun _ => (none, some "unknown account")

/-- A freshly constructed node: fake engine, no coinbase, no wallets, no light
server, no pending database upgrade. -/
def sampleNode : HappyUC where
  config := { LightServ := 0, LightPeers := 0 }
  chainConfig := { Clique := none }
  shutdownChan := { closed := false }
  stopDbUpgrade := none
  lesServer := none
  engine := Engine.faker
  accountManager := noWallets
  blockchain := sampleChain
  miner := sampleMiner
  coinbase := 0
  networkId := 1
  netRPCService := none
  acceptTxs := 0
  trace := []

/-- The sample node after `Stop` has run on it once: its shutdown channel is
closed. -/
def stoppedNode : HappyUC :=
  { sampleNode with
    shutdownChan := { closed := true }
    trace := [Effect.bloomIndexerClose, Effect.blockchainStop, Effect.protocolManagerStop,
      Effect.txPoolStop, Effect.minerStop, Effect.eventMuxStop, Effect.chainDbClose,
      Effect.closeShutdownChan] }

/-- A node serving light clients, with as many light-peer slots configured
as the server below admits peers in total. -/
def lightNode : HappyUC :=
  { sampleNode with config := { LightServ := 50, LightPeers := 25 }, lesServer := some 1 }

/-- A server admitting 25 peers. -/
def server25 : Server := { MaxPeers := 25 }

/-- A server admitting 100 peers. -/
def server100 : Server := { MaxPeers := 100 }

/-! ## The shutdown order of the specification -/

/-- The ten shutdown steps in the order the specification lists them, the
first and the fifth only for a node that has the component. -/
def stopOrder (s : HappyUC) : List Effect :=
  (if s.stopDbUpgrade ≠ none then [Effect.stopDbUpgrade] else []) ++
  [Effect.bloomIndexerClose, Effect.blockchainStop, Effect.protocolManagerStop] ++
  (if s.lesServer ≠ none then [Effect.lesServerStop] else []) ++
  [Effect.txPoolStop, Effect.minerStop, Effect.eventMuxStop, Effect.chainDbClose,
   Effect.closeShutdownChan]

/-- The capacity `Start` hands to the protocol layer when it does not fail. -/
def peerBudget (s : HappyUC) (srvr : Server) : Int :=
  if s.config.LightServ > 0 then wrapInt (srvr.MaxPeers - s.config.LightPeers)
  else srvr.MaxPeers

/-! ## Nodes for the mining coordinator -/

/-- The account the sample wallets hold. -/
def accountA : Account := { Address := 0xA11CE }

/-- A node without configured coinbase whose account manager has one wallet
holding the single account `accountA`, and finds that wallet for it. -/
def oneWalletNode : HappyUC :=
  { sampleNode with
    accountManager :=
      { wallets := [{ URL := 1, accounts := [accountA] }]
        find := fun a =>
          if a = accountA then (some { URL := 1, accounts := [accountA] }, none)
          else (none, some "unknown account") } }

/-- A node without configured coinbase whose first wallet is empty while its
second wallet holds `accountA`. -/
def emptyFirstWalletNode : HappyUC :=
  { sampleNode with
    accountManager :=
      { wallets := [{ URL := 1, accounts := [] }, { URL := 2, accounts := [accountA] }]
        find := fun _ => (none, some "unknown account") } }

/-- A node without configured coinbase whose first wallet holds an account
at the zero address. -/
def zeroAccountNode : HappyUC :=
  { sampleNode with
    accountManager :=
      { wallets := [{ URL := 1, accounts := [{ Address := 0 }] }]
        find := fun _ => (none, some "unknown account") } }

/-- A proof-of-authority node with coinbase `accountA` configured, whose
account manager holds no wallet for it. -/
def cliqueNode : HappyUC :=
  { sampleNode with
    chainConfig := { Clique := some { Period := 15, Epoch := 30000 } }
    engine := Engine.clique { Period := 15, Epoch := 30000 } 7
    coinbase := accountA.Address }

/-- The account `Coinbase` adopts when none is configured: the first account
of the first wallet, if there is one. -/
def firstAccount (am : Manager) : Option Account :=
  am.Wallets.head?.bind fun w => w.Accounts.head?

/-! ## Chains for the query backend -/

/-- A chain that stores the header of height 3 but not yet its block, as
after the header of a block has been imported ahead of its body. -/
def headerAheadChain : BlockChain :=
  { sampleChain with
    getHeaderByNumber := fun n =>
      if n < 4 then some { Number := n, Root := 100 + n, Extra := 0 } else none }

/-- The backend of a node over `headerAheadChain`. -/
def headerAheadBackend : EthApiBackend :=
  { huc := { sampleNode with blockchain := headerAheadChain } }

/-- The backend of the sample node, whose chain holds three blocks. -/
def sampleBackend : EthApiBackend := { huc := sampleNode }

/-- A miner that has no speculative block to hand out: both accessors answer
nil. -/
def idleMiner : Miner where
  pendingBlock := none
  pending := (none, none)

/-- The backend of the sample node with `idleMiner` as its miner. -/
def idleMinerBackend : EthApiBackend :=
  { huc := { sampleNode with miner := idleMiner } }

/-- Another miner, with a speculative block at height 9. -/
def otherMiner : Miner where
  pendingBlock := some { header := { Number := 9, Root := 9, Extra := 9 }, body := 9 }
  pending := (some { header := { Number := 9, Root := 9, Extra := 9 }, body := 9 }, some 9)

/-- The backend with the miner of its node replaced. -/
def EthApiBackend.withMiner (b : EthApiBackend) (m : Miner) : EthApiBackend :=
  { huc := { b.huc with miner := m } }

/-- The backend with the chain of its node replaced. -/
def EthApiBackend.withChain (b : EthApiBackend) (bc : BlockChain) : EthApiBackend :=
  { huc := { b.huc with blockchain := bc } }

/-! ## Construction: recognisers and samples -/

/-- Whether a call is a rewind of the chain head. -/
def Effect.isSetHead : Effect → Bool
  | .blockchainSetHead _ => true
  | _ => false

/-- Whether a call is a write of the chain configuration. -/
def Effect.isWriteChainConfig : Effect → Bool
  | .writeChainConfig _ _ => true
  | _ => false

/-- The calls `New` makes when every step succeeds and genesis setup reports
the compatibility error `compat`: database upgrade, genesis setup, the
version write unless the check is skipped, chain construction, the rewind,
the configuration write, and the construction of the remaining subsystems. -/
def rewindCalls (ctx : ServiceContext) (config : Config) (pkg : Packages)
    (chainConfig : ChainConfig) (genesisHash : Hash) (compat : ConfigCompatError) : List Effect :=
  [Effect.upgradeDeduplicateData, Effect.setupGenesisBlock] ++
  (if config.SkipBcVersionCheck then []
   else [Effect.writeBlockChainVersion pkg.BlockChainVersion]) ++
  [Effect.newBlockChain, Effect.blockchainSetHead compat.RewindTo,
   Effect.writeChainConfig genesisHash chainConfig, Effect.bloomIndexerStart,
   Effect.newTxPool
     (if config.TxPoolJournal ≠ "" then ctx.ResolvePath config.TxPoolJournal
      else config.TxPoolJournal),
   Effect.newProtocolManager, Effect.newMiner,
   Effect.minerSetExtra
     (makeExtraData pkg.MaximumExtraDataSize pkg.defaultExtra config.ExtraData),
   Effect.newOracle (if config.GPODefault = none then config.GasPrice else config.GPODefault)]

/-- A service context whose database opens. -/
def sampleContext : ServiceContext :=
  { ResolvePath := fun p => "/data/" ++ p
    OpenDatabase := fun _ _ _ => .ok 7 }

/-- Packages for which every construction step succeeds, genesis setup
answering with the given error. -/
def samplePackages (genesisErr : Option GenesisErr) : Packages where
  upgradeDeduplicateData := fun _ => none
  SetupGenesisBlock := fun _ _ => ({ Clique := none }, 0xABC, genesisErr)
  GetBlockChainVersion := fun _ => 3
  BlockChainVersion := 3
  NewBlockChain := fun _ _ _ => .ok sampleChain
  SetHead := fun bc n =>
    { bc with
      currentBlock := some { header := { Number := n, Root := 100 + n, Extra := 0 }, body := n }
      getHeaderByNumber := fun k => if k ≤ n then bc.getHeaderByNumber k else none
      getBlockByNumber := fun k => if k ≤ n then bc.getBlockByNumber k else none }
  NewProtocolManager := fun _ _ _ => .ok 0
  NewMiner := fun _ _ => sampleMiner
  MaximumExtraDataSize := 32
  defaultExtra := [0xd8, 0x83, 0x01, 0x08, 0x02, 0x84, 0x67, 0x68, 0x75, 0x63]

/-- A configuration with the fake proof-of-work engine and full sync. -/
def sampleConfig : Config :=
  { LightServ := 0, LightPeers := 0
    Ethash :=
      { CacheDir := "ethash", CachesInMem := 2, CachesOnDisk := 3, DatasetDir := "/dag",
        DatasetsInMem := 1, DatasetsOnDisk := 2, PowMode := ModeFake } }

/-- A compatibility error that asks for a rewind to height 2. -/
def sampleCompat : ConfigCompatError := { What := "Homestead fork block", RewindTo := 2 }

/-! ## Shutdown -/

/-- C1, as stated, fails on a node that was stopped before: the second `Stop`
makes the nine collaborator calls again and then panics in
`close(s.shutdownChan)`, so it neither closes the channel nor returns. -/
theorem Stop_twice_panics :
    Stop sampleNode = (stoppedNode, Completion.returned none) ∧
    (Stop stoppedNode).2 = Completion.panicked "close of closed channel" ∧
    Effect.closeShutdownChan ∉ (Stop stoppedNode).1.trace.drop stoppedNode.trace.length ∧
    ¬ ((Stop stoppedNode).2 = Completion.returned none ∧
       (Stop stoppedNode).1.trace = stoppedNode.trace ++ stopOrder stoppedNode) := by
  refine ⟨rfl, ?_, ?_, ?_⟩ <;> decide

/-- C1 (amended): on every node whose shutdown channel is still open, `Stop`
returns no error, leaves the channel closed and every other field as it was,
and has made exactly the calls of `stopOrder`, each once and in that order:
cancel the database upgrade (if present), close the bloom indexer, stop the
chain, stop the protocol manager, stop the light server (if attached), stop
the transaction pool, the miner and the event mux, close the database, close
the shutdown channel. -/
theorem Stop_order (s : HappyUC) (h : s.shutdownChan.closed = false) :
    Stop s =
      ({ s with shutdownChan := { closed := true }, trace := s.trace ++ stopOrder s },
       Completion.returned none) := by
  unfold Stop stopOrder
  cases hu : s.stopDbUpgrade <;> cases hl : s.lesServer <;>
    simp [Id.run, HappyUC.emit, Chan.close, h, hu, hl]

/-- Witness for C1 (amended): a node with a pending database upgrade and an
attached light server. -/
theorem Stop_order_witness :
    Stop { sampleNode with stopDbUpgrade := some 1, lesServer := some 1 } =
      ({ sampleNode with
          stopDbUpgrade := some 1, lesServer := some 1,
          shutdownChan := { closed := true },
          trace := [Effect.stopDbUpgrade, Effect.bloomIndexerClose, Effect.blockchainStop,
            Effect.protocolManagerStop, Effect.lesServerStop, Effect.txPoolStop,
            Effect.minerStop, Effect.eventMuxStop, Effect.chainDbClose,
            Effect.closeShutdownChan] },
       Completion.returned none) :=
  Stop_order { sampleNode with stopDbUpgrade := some 1, lesServer := some 1 } rfl

/-! ## Consensus-engine selection -/

/-- C2: the decision table of `CreateConsensusEngine`.  With a Clique
configuration the result is the proof-of-authority engine, whatever the
proof-of-work mode; without one, mode fake gives the faker, mode test the
tester, mode shared the shared engine, and every other mode the full ethash
engine built from the resolved cache directory, the dataset directory and the
four retention counts, with CPU mining disabled. -/
theorem CreateConsensusEngine_table (ctx : ServiceContext) (config : EthashConfig)
    (chainConfig : ChainConfig) (db : Database) :
    (∀ c, chainConfig.Clique = some c →
        CreateConsensusEngine ctx config chainConfig db = Engine.clique c db) ∧
    (chainConfig.Clique = none →
      (config.PowMode = ModeFake →
        CreateConsensusEngine ctx config chainConfig db = Engine.faker) ∧
      (config.PowMode = ModeTest →
        CreateConsensusEngine ctx config chainConfig db = Engine.tester) ∧
      (config.PowMode = ModeShared →
        CreateConsensusEngine ctx config chainConfig db = Engine.shared) ∧
      (config.PowMode ≠ ModeFake → config.PowMode ≠ ModeTest → config.PowMode ≠ ModeShared →
        CreateConsensusEngine ctx config chainConfig db =
          Engine.ethash
            { CacheDir := ctx.ResolvePath config.CacheDir
              CachesInMem := config.CachesInMem
              CachesOnDisk := config.CachesOnDisk
              DatasetDir := config.DatasetDir
              DatasetsInMem := config.DatasetsInMem
              DatasetsOnDisk := config.DatasetsOnDisk
              PowMode := 0 }
            (-1))) := by
  refine ⟨fun c hc => by simp [CreateConsensusEngine, hc], fun hn => ⟨?_, ?_, ?_, ?_⟩⟩
  · intro hm
    simp [CreateConsensusEngine, hn, hm]
  · intro hm
    simp [CreateConsensusEngine, hn, hm, ModeTest, ModeFake]
  · intro hm
    simp [CreateConsensusEngine, hn, hm, ModeShared, ModeTest, ModeFake]
  · intro h1 h2 h3
    simp [CreateConsensusEngine, hn, h1, h2, h3]

/-- Witness for C2: one configuration for each row of the table. -/
theorem CreateConsensusEngine_table_witness :
    CreateConsensusEngine { ResolvePath := fun p => "/data/" ++ p }
        { CacheDir := "ethash", CachesInMem := 2, CachesOnDisk := 3, DatasetDir := "/dag",
          DatasetsInMem := 1, DatasetsOnDisk := 2, PowMode := ModeFake }
        { Clique := some { Period := 15, Epoch := 30000 } } 7 =
      Engine.clique { Period := 15, Epoch := 30000 } 7 ∧
    CreateConsensusEngine { ResolvePath := fun p => "/data/" ++ p }
        { CacheDir := "ethash", CachesInMem := 2, CachesOnDisk := 3, DatasetDir := "/dag",
          DatasetsInMem := 1, DatasetsOnDisk := 2, PowMode := ModeTest }
        { Clique := none } 7 = Engine.tester ∧
    CreateConsensusEngine { ResolvePath := fun p => "/data/" ++ p }
        { CacheDir := "ethash", CachesInMem := 2, CachesOnDisk := 3, DatasetDir := "/dag",
          DatasetsInMem := 1, DatasetsOnDisk := 2, PowMode := 4 }
        { Clique := none } 7 =
      Engine.ethash
        { CacheDir := "/data/ethash", CachesInMem := 2, CachesOnDisk := 3, DatasetDir := "/dag",
          DatasetsInMem := 1, DatasetsOnDisk := 2, PowMode := 0 } (-1) :=
  ⟨(CreateConsensusEngine_table _ _ _ _).1 _ rfl,
   ((CreateConsensusEngine_table _ _ _ _).2 rfl).2.1 rfl,
   ((CreateConsensusEngine_table _ _ _ _).2 rfl).2.2.2 (by decide) (by decide) (by decide)⟩

/-! ## Start -/

/-- C3, as stated, fails when the light-peer count equals the server limit:
the reservation would leave a budget of zero, which is not negative, and
`Start` returns an error all the same. -/
theorem Start_zero_budget_fails :
    (Start lightNode server25).2 ≠ none ∧
    ¬ (server25.MaxPeers - lightNode.config.LightPeers < 0) ∧
    ¬ ((Start lightNode server25).2 ≠ none ↔
        (lightNode.config.LightServ > 0 ∧
          server25.MaxPeers - lightNode.config.LightPeers < 0)) := by
  decide

/-- C3 (amended): `Start` returns an error exactly when a light service is in
use (`LightServ > 0`) and the light-peer count is at least the server's peer
limit, that is when the reservation would leave a zero or negative budget; it
has then started the bloom handlers only.  In every other case it returns no
error and starts the protocol manager, once, with the capacity `peerBudget`:
the server limit minus the light-peer count when a light service is in use
(computed in 64-bit arithmetic, the exact difference whenever that is below
`2^63`), the full server limit otherwise; the light server is started after
it when one is attached. -/
theorem Start_peer_budget (s : HappyUC) (srvr : Server) :
    ((Start s srvr).2 ≠ none ↔
      (s.config.LightServ > 0 ∧ s.config.LightPeers ≥ srvr.MaxPeers)) ∧
    (s.config.LightServ > 0 ∧ s.config.LightPeers ≥ srvr.MaxPeers →
      (Start s srvr).2 = some (invalidPeerConfig s.config.LightPeers srvr.MaxPeers) ∧
      (Start s srvr).1.trace = s.trace ++ [Effect.startBloomHandlers]) ∧
    (¬ (s.config.LightServ > 0 ∧ s.config.LightPeers ≥ srvr.MaxPeers) →
      (Start s srvr).2 = none ∧
      (Start s srvr).1.trace =
        s.trace ++ [Effect.startBloomHandlers, Effect.protocolManagerStart (peerBudget s srvr)] ++
          (if s.lesServer ≠ none then [Effect.lesServerStart srvr] else [])) ∧
    (s.config.LightServ > 0 → s.config.LightPeers < srvr.MaxPeers →
      srvr.MaxPeers - s.config.LightPeers < 2 ^ 63 →
      peerBudget s srvr = srvr.MaxPeers - s.config.LightPeers) ∧
    (¬ s.config.LightServ > 0 → peerBudget s srvr = srvr.MaxPeers) := by
  refine ⟨?_, ?_, ?_, ?_, ?_⟩
  · unfold Start
    by_cases h1 : s.config.LightServ > 0 <;> by_cases h2 : s.config.LightPeers ≥ srvr.MaxPeers <;>
      cases hl : s.lesServer <;> simp [Id.run, HappyUC.emit, h1, h2, hl]
  · rintro ⟨h1, h2⟩
    unfold Start
    simp [Id.run, HappyUC.emit, h1, h2]
  · intro h
    unfold Start peerBudget
    by_cases h1 : s.config.LightServ > 0
    · by_cases h2 : s.config.LightPeers ≥ srvr.MaxPeers
      · exact absurd ⟨h1, h2⟩ h
      · cases hl : s.lesServer <;> simp [Id.run, HappyUC.emit, h1, h2, hl]
    · cases hl : s.lesServer <;> simp [Id.run, HappyUC.emit, h1, hl]
  · intro h1 h2 h3
    unfold peerBudget wrapInt
    simp only [h1, if_true]
    omega
  · intro h1
    simp [peerBudget, h1]

/-- Witness for C3 (amended): 25 light peers out of 100 leave a capacity of 75;
25 out of 25 are refused. -/
theorem Start_peer_budget_witness :
    (Start lightNode server25).2 = some (invalidPeerConfig 25 25) ∧
    (Start lightNode server100).2 = none ∧
    (Start lightNode server100).1.trace =
      [Effect.startBloomHandlers, Effect.protocolManagerStart 75,
       Effect.lesServerStart server100] ∧
    peerBudget lightNode server100 = 100 - 25 :=
  ⟨((Start_peer_budget lightNode server25).2.1 (by decide)).1,
   ((Start_peer_budget lightNode server100).2.2.1 (by decide)).1,
   ((Start_peer_budget lightNode server100).2.2.1 (by decide)).2,
   (Start_peer_budget lightNode server100).2.2.2.1 (by decide) (by decide) (by decide)⟩

/-! ## Auxiliary facts about `Coinbase` -/

/-- The method `Coinbase` in closed form. -/
theorem Coinbase_eq (s : HappyUC) :
    Coinbase s =
      if s.coinbase ≠ 0 then (s, s.coinbase, none)
      else match firstAccount s.accountManager with
        | some a => ({ s with coinbase := a.Address }, a.Address, none)
        | none => (s, 0, some errCoinbaseRequired) := by
  unfold Coinbase firstAccount
  simp only [HappyUC.AccountManager]
  by_cases h0 : s.coinbase = 0
  · cases hw : s.accountManager.Wallets with
    | nil => simp [Id.run, h0]
    | cons w ws =>
      cases ha : w.Accounts with
      | nil => simp [Id.run, h0, ha]
      | cons a as => simp [Id.run, h0, ha]
  · simp [Id.run, h0]

/-- A failing `Coinbase` returns the node as it was, the zero address, and
the coinbase-required error. -/
theorem Coinbase_fail (s : HappyUC) (h : (Coinbase s).2.2 ≠ none) :
    Coinbase s = (s, 0, some errCoinbaseRequired) := by
  rw [Coinbase_eq] at h ⊢
  by_cases h0 : s.coinbase = 0
  · cases hf : firstAccount s.accountManager with
    | none => simp [h0]
    | some a => simp [h0, hf] at h
  · simp [h0] at h

/-- The method `Coinbase` touches the stored coinbase only. -/
theorem Coinbase_frame (s : HappyUC) :
    (Coinbase s).1.accountManager = s.accountManager ∧
    (Coinbase s).1.engine = s.engine ∧
    (Coinbase s).1.trace = s.trace ∧
    (Coinbase s).1.acceptTxs = s.acceptTxs := by
  rw [Coinbase_eq]
  by_cases h0 : s.coinbase = 0
  · cases hf : firstAccount s.accountManager <;> simp [h0]
  · simp [h0]

/-- On success the address returned is the coinbase stored afterwards. -/
theorem Coinbase_stored (s : HappyUC) (h : (Coinbase s).2.2 = none) :
    (Coinbase s).1.coinbase = (Coinbase s).2.1 := by
  rw [Coinbase_eq] at h ⊢
  by_cases h0 : s.coinbase = 0
  · cases hf : firstAccount s.accountManager with
    | none => simp [h0, hf] at h
    | some a => simp [h0]
  · simp [h0]
/-! ## Coinbase resolution -/

/-- C4, as stated, fails when the first wallet is empty and a later wallet
holds an account: an account exists, and `Coinbase` fails with the
coinbase-required error, because it looks at the first wallet only. -/
theorem Coinbase_ignores_later_wallets :
    emptyFirstWalletNode.coinbase = 0 ∧
    (∃ w ∈ emptyFirstWalletNode.accountManager.Wallets, w.Accounts ≠ []) ∧
    Coinbase emptyFirstWalletNode = (emptyFirstWalletNode, 0, some errCoinbaseRequired) := by
  refine ⟨rfl, ?_, rfl⟩
  decide

/-- C4 (amended): a non-zero configured coinbase is returned with no error.
Otherwise, for every list of wallets, if the first wallet exists and holds an
account, `Coinbase` returns the first account of the first wallet with no
error; it fails with the coinbase-required error exactly when there is no
first wallet or the first wallet holds no account, which is the case in
particular when no account exists at all. -/
theorem Coinbase_resolution (s : HappyUC) :
    (s.coinbase ≠ 0 → Coinbase s = (s, s.coinbase, none)) ∧
    (s.coinbase = 0 → ∀ a, firstAccount s.accountManager = some a →
      Coinbase s = ({ s with coinbase := a.Address }, a.Address, none)) ∧
    (s.coinbase = 0 → firstAccount s.accountManager = none →
      Coinbase s = (s, 0, some errCoinbaseRequired)) ∧
    ((Coinbase s).2.2 ≠ none ↔ (s.coinbase = 0 ∧ firstAccount s.accountManager = none)) ∧
    (s.coinbase = 0 → (∀ w ∈ s.accountManager.Wallets, w.Accounts = []) →
      Coinbase s = (s, 0, some errCoinbaseRequired)) := by
  have key : s.coinbase = 0 → firstAccount s.accountManager = none →
      Coinbase s = (s, 0, some errCoinbaseRequired) := by
    intro h0 hf
    unfold Coinbase
    unfold firstAccount at hf
    simp only [HappyUC.AccountManager]
    cases hw : s.accountManager.Wallets with
    | nil => simp [Id.run, h0]
    | cons w ws =>
      cases ha : w.Accounts with
      | nil => simp [Id.run, h0, ha]
      | cons a as => simp [hw, ha] at hf
  have pos : s.coinbase = 0 → ∀ a, firstAccount s.accountManager = some a →
      Coinbase s = ({ s with coinbase := a.Address }, a.Address, none) := by
    intro h0 a hf
    unfold Coinbase
    unfold firstAccount at hf
    simp only [HappyUC.AccountManager]
    cases hw : s.accountManager.Wallets with
    | nil => simp [hw] at hf
    | cons w ws =>
      cases ha : w.Accounts with
      | nil => simp [hw, ha] at hf
      | cons a1 as =>
        simp [hw, ha] at hf
        subst hf
        simp [Id.run, h0, ha]
  have nz : s.coinbase ≠ 0 → Coinbase s = (s, s.coinbase, none) := by
    intro h
    unfold Coinbase
    simp [Id.run, h]
  refine ⟨nz, pos, key, ?_, ?_⟩
  · constructor
    · intro he
      by_cases h0 : s.coinbase = 0
      · refine ⟨h0, ?_⟩
        cases hf : firstAccount s.accountManager with
        | none => rfl
        | some a => rw [pos h0 a hf] at he; exact absurd rfl he
      · rw [nz h0] at he; exact absurd rfl he
    · rintro ⟨h0, hf⟩
      rw [key h0 hf]
      simp
  · intro h0 hall
    apply key h0
    unfold firstAccount
    cases hw : s.accountManager.Wallets with
    | nil => rfl
    | cons w ws =>
      have := hall w (by rw [hw]; simp)
      simp [this]

/-- Witness for C4 (amended): one wallet with one account; a configured
coinbase; no wallets; an empty first wallet. -/
theorem Coinbase_resolution_witness :
    Coinbase cliqueNode = (cliqueNode, accountA.Address, none) ∧
    Coinbase oneWalletNode =
      ({ oneWalletNode with coinbase := accountA.Address }, accountA.Address, none) ∧
    Coinbase emptyFirstWalletNode = (emptyFirstWalletNode, 0, some errCoinbaseRequired) ∧
    Coinbase sampleNode = (sampleNode, 0, some errCoinbaseRequired) :=
  ⟨(Coinbase_resolution cliqueNode).1 (by decide),
   (Coinbase_resolution oneWalletNode).2.1 rfl accountA rfl,
   (Coinbase_resolution emptyFirstWalletNode).2.2.1 rfl rfl,
   (Coinbase_resolution sampleNode).2.2.2.2 rfl (by decide)⟩
/-- C5, as stated, fails when the adopted account sits at the zero address:
`Coinbase` succeeds with the zero address, stores it, and the next call finds
no coinbase configured and consults the wallets again, so that it fails once
the wallets are gone and returns another address once they have changed. -/
theorem Coinbase_zero_account_not_stable :
    zeroAccountNode.coinbase = 0 ∧
    (Coinbase zeroAccountNode).2 = (0, none) ∧
    (Coinbase { (Coinbase zeroAccountNode).1 with accountManager := noWallets }).2 =
      (0, some errCoinbaseRequired) ∧
    (Coinbase { (Coinbase zeroAccountNode).1 with
        accountManager := oneWalletNode.accountManager }).2 = (accountA.Address, none) := by
  decide

/-- C5 (amended): when `Coinbase` succeeds with address `A` on a node without
configured coinbase, the node afterwards is the node before with `A` stored
as coinbase; and if `A` is not the zero address, `Coinbase` returns `A` with
no error on every later state `t` of the node that still stores it, whatever
the account manager of `t` holds, and leaves `t` as it is.  When `Coinbase`
fails the node is unchanged. -/
theorem Coinbase_persisted (s : HappyUC) :
    (∀ s1 A, s.coinbase = 0 → Coinbase s = (s1, A, none) →
      s1 = { s with coinbase := A } ∧ s1.coinbase = A ∧
      (A ≠ 0 → ∀ t : HappyUC, t.coinbase = s1.coinbase → Coinbase t = (t, A, none))) ∧
    ((Coinbase s).2.2 ≠ none → (Coinbase s).1 = s) := by
  constructor
  · intro s1 A h0 hc
    rw [Coinbase_eq] at hc
    simp only [h0, ne_eq, not_true_eq_false, if_false] at hc
    cases hf : firstAccount s.accountManager with
    | none => simp [hf] at hc
    | some a =>
      simp only [hf, Prod.mk.injEq, and_true] at hc
      obtain ⟨h1, h2⟩ := hc
      subst h2
      subst h1
      refine ⟨rfl, rfl, ?_⟩
      intro hA t ht
      have ht2 : t.coinbase = a.Address := ht
      rw [Coinbase_eq]
      simp [ht2, hA]
  · intro he
    rw [Coinbase_eq] at he ⊢
    by_cases h0 : s.coinbase = 0
    · cases hf : firstAccount s.accountManager with
      | none => simp [h0, hf]
      | some a => simp [h0, hf] at he
    · simp [h0] at he

/-- Witness for C5 (amended): the wallet's account is adopted, stored, and
returned again after the wallets are gone; without wallets the call fails and
changes nothing. -/
theorem Coinbase_persisted_witness :
    (Coinbase oneWalletNode).1.coinbase = accountA.Address ∧
    Coinbase { (Coinbase oneWalletNode).1 with accountManager := noWallets } =
      ({ (Coinbase oneWalletNode).1 with accountManager := noWallets },
        accountA.Address, none) ∧
    (Coinbase sampleNode).1 = sampleNode :=
  ⟨((Coinbase_persisted oneWalletNode).1 _ accountA.Address rfl rfl).2.1,
   ((Coinbase_persisted oneWalletNode).1 _ accountA.Address rfl rfl).2.2 (by decide)
      { (Coinbase oneWalletNode).1 with accountManager := noWallets } rfl,
   (Coinbase_persisted sampleNode).2 (by decide)⟩

/-! ## Starting the miner -/

/-- C6: `StartMining` fails without launching anything.  If coinbase
resolution fails with error `e`, `StartMining` returns the coinbase-missing
error and leaves the node as it was.  If the engine is proof-of-authority,
the coinbase resolves, and the account manager answers the lookup of the
resolved coinbase with no wallet or with an error, `StartMining` returns the
signer-missing error, makes no collaborator call (it neither authorizes the
engine nor starts the miner) and leaves `acceptTxs` and the engine as they
were. -/
theorem StartMining_failure (s : HappyUC) (local_ : Bool) :
    (∀ e, (Coinbase s).2.2 = some e →
      StartMining s local_ = (s, some ("coinbase missing: " ++ e))) ∧
    (s.engine.isClique = true → (Coinbase s).2.2 = none →
      ((s.accountManager.Find { Address := (Coinbase s).2.1 }).1 = none ∨
       (s.accountManager.Find { Address := (Coinbase s).2.1 }).2 ≠ none) →
      (StartMining s local_).2 =
        some ("signer missing: " ++
          fmtV (s.accountManager.Find { Address := (Coinbase s).2.1 }).2) ∧
      (StartMining s local_).1.trace = s.trace ∧
      (StartMining s local_).1.acceptTxs = s.acceptTxs ∧
      (StartMining s local_).1.engine = s.engine) := by
  constructor
  · intro e he
    have h1 := Coinbase_fail s (by rw [he]; simp)
    unfold StartMining
    rw [h1] at he ⊢
    simp only [Option.some.injEq] at he
    subst he
    simp [Id.run]
  · intro hcl hok hfind
    obtain ⟨hm, hen, htr, hacc⟩ := Coinbase_frame s
    unfold StartMining
    rcases hc : Coinbase s with ⟨s1, eb, err⟩
    rw [hc] at hok hfind hm hen htr hacc
    simp only at hok hfind hm hen htr hacc
    subst hok
    have hcl1 : s1.engine.isClique = true := by rw [hen]; exact hcl
    rw [← hm] at hfind ⊢
    rcases hfd : s1.accountManager.Find { Address := eb } with ⟨wallet, ferr⟩
    rw [hfd] at hfind
    simp only at hfind
    cases wallet with
    | none => simp [Id.run, hcl, hcl1, hfd, htr, hacc, hen]
    | some w =>
      cases ferr with
      | none => simp at hfind
      | some fe => simp [Id.run, hcl, hcl1, hfd, htr, hacc, hen]

/-- Witness for C6: a node without coinbase and without wallets, and a
proof-of-authority node whose account manager has no wallet for the
configured coinbase. -/
theorem StartMining_failure_witness :
    StartMining sampleNode true =
      (sampleNode, some ("coinbase missing: " ++ errCoinbaseRequired)) ∧
    ((StartMining cliqueNode true).2 = some ("signer missing: " ++ "unknown account") ∧
     (StartMining cliqueNode true).1.trace = [] ∧
     (StartMining cliqueNode true).1.acceptTxs = 0 ∧
     (StartMining cliqueNode true).1.engine = cliqueNode.engine) :=
  ⟨(StartMining_failure sampleNode true).1 errCoinbaseRequired rfl,
   (StartMining_failure cliqueNode true).2 rfl rfl (Or.inl rfl)⟩

/-- C7: on every node whose engine is not proof-of-authority and whose
coinbase resolves to `A`, `StartMining` returns no error and makes exactly one
collaborator call, the start of the miner with identity `A`; `acceptTxs` is 1
afterwards when `local` is true and is unchanged when it is false; and the
coinbase stored afterwards is `A`. -/
theorem StartMining_success (s : HappyUC) (local_ : Bool) (A : Address)
    (hpow : s.engine.isClique = false) (hA : (Coinbase s).2 = (A, none)) :
    (StartMining s local_).2 = none ∧
    (StartMining s local_).1.trace = s.trace ++ [Effect.minerStart A] ∧
    (StartMining s local_).1.acceptTxs = (if local_ then 1 else s.acceptTxs) ∧
    (StartMining s local_).1.coinbase = A := by
  obtain ⟨_, hen, htr, hacc⟩ := Coinbase_frame s
  have hst := Coinbase_stored s (by rw [hA])
  unfold StartMining
  rcases hc : Coinbase s with ⟨s1, eb, err⟩
  rw [hc] at hA hen htr hacc hst
  simp only [Prod.mk.injEq] at hA hen htr hacc hst
  obtain ⟨h1, h2⟩ := hA
  subst h1
  subst h2
  have hpow1 : s1.engine.isClique = false := by rw [hen]; exact hpow
  cases local_ <;> simp [Id.run, HappyUC.emit, hpow, hpow1, htr, hacc, hst, hen]

/-- Witness for C7: fake engine, no configured coinbase, one wallet holding
the single account `accountA`, local mining. -/
theorem StartMining_success_witness :
    (StartMining oneWalletNode true).2 = none ∧
    (StartMining oneWalletNode true).1.trace = [Effect.minerStart accountA.Address] ∧
    (StartMining oneWalletNode true).1.acceptTxs = 1 ∧
    (StartMining oneWalletNode true).1.coinbase = accountA.Address :=
  StartMining_success oneWalletNode true accountA.Address rfl rfl

/-! ## The query backend -/

/-- C8, as stated, fails in two ways.  For a numbered reference on a chain
that stores a header without its block, the header query answers with the
stored header and the block query with nothing (height 3 of
`headerAheadChain`).  For the pending reference on a miner that hands out
no block, the block query returns an absent block and the header query
panics on the nil block instead of returning an absent header. -/
theorem HeaderByNumber_without_block :
    HeaderByNumber headerAheadBackend (BlockRef.Numbered 3).toBlockNumber =
      Result.returned (some { Number := 3, Root := 103, Extra := 0 }, none) ∧
    BlockByNumber headerAheadBackend (BlockRef.Numbered 3).toBlockNumber = (none, none) ∧
    ¬ (HeaderByNumber headerAheadBackend (BlockRef.Numbered 3).toBlockNumber =
        Result.returned
          (((BlockByNumber headerAheadBackend (BlockRef.Numbered 3).toBlockNumber).1).map
            Block.Header, none)) ∧
    BlockByNumber idleMinerBackend BlockRef.Pending.toBlockNumber = (none, none) ∧
    HeaderByNumber idleMinerBackend BlockRef.Pending.toBlockNumber =
      Result.panicked nilDereference := by
  decide

/-- C8 (amended): call a reference well stored when, for the pending
reference, the miner hands out a block; for the latest reference, the chain
hands out a current block; and for every other reference, the header lookup
of the chain at its height gives the header of what the block lookup gives
(both absent or both present).  On every node and for every reference,
`BlockByNumber` returns with a nil error; if the reference is well stored,
`HeaderByNumber` returns, with a nil error, the header of the block that
`BlockByNumber` returns, one being absent exactly when the other is; and
whenever `HeaderByNumber` returns the header of that block the reference is
well stored. -/
theorem HeaderByNumber_eq_BlockByNumber_header (b : EthApiBackend) (blockNr : BlockNumber) :
    (BlockByNumber b blockNr).2 = none ∧
    ((blockNr = PendingBlockNumber → b.huc.miner.PendingBlock ≠ none) →
     (blockNr = LatestBlockNumber → b.huc.blockchain.CurrentBlock ≠ none) →
     (blockNr ≠ PendingBlockNumber → blockNr ≠ LatestBlockNumber →
        b.huc.blockchain.GetHeaderByNumber (toUint64 blockNr) =
          (b.huc.blockchain.GetBlockByNumber (toUint64 blockNr)).map Block.Header) →
     ∃ header, HeaderByNumber b blockNr = Result.returned (header, none) ∧
       header = ((BlockByNumber b blockNr).1).map Block.Header ∧
       (header = none ↔ (BlockByNumber b blockNr).1 = none)) ∧
    (HeaderByNumber b blockNr =
        Result.returned (((BlockByNumber b blockNr).1).map Block.Header, none) →
      (blockNr = PendingBlockNumber → b.huc.miner.PendingBlock ≠ none) ∧
      (blockNr = LatestBlockNumber → b.huc.blockchain.CurrentBlock ≠ none) ∧
      (blockNr ≠ PendingBlockNumber → blockNr ≠ LatestBlockNumber →
        b.huc.blockchain.GetHeaderByNumber (toUint64 blockNr) =
          (b.huc.blockchain.GetBlockByNumber (toUint64 blockNr)).map Block.Header)) := by
  have hlp : ¬ LatestBlockNumber = PendingBlockNumber := by decide
  have hpl : ¬ PendingBlockNumber = LatestBlockNumber := by decide
  unfold HeaderByNumber BlockByNumber
  by_cases hp : blockNr = PendingBlockNumber
  · subst hp
    cases hb : b.huc.miner.PendingBlock <;> simp [hb, headerOf, hpl]
  · by_cases hl : blockNr = LatestBlockNumber
    · subst hl
      cases hb : b.huc.blockchain.CurrentBlock <;> simp [hb, headerOf, hlp]
    · refine ⟨by simp [hp, hl], ?_, ?_⟩
      · intro _ _ hstore
        simp [hp, hl, hstore hp hl]
      · intro h
        simp only [hp, hl, if_false, Result.returned.injEq, Prod.mk.injEq, and_true] at h
        exact ⟨fun h1 => absurd h1 hp, fun h1 => absurd h1 hl, fun _ _ => h⟩

/-- Witness for C8 (amended): height 1 on the three-block chain, and the
pending and the latest reference over the chain whose headers run ahead. -/
theorem HeaderByNumber_eq_BlockByNumber_header_witness :
    (∃ header,
      HeaderByNumber sampleBackend (BlockRef.Numbered 1).toBlockNumber =
        Result.returned (header, none) ∧
      header =
        ((BlockByNumber sampleBackend (BlockRef.Numbered 1).toBlockNumber).1).map Block.Header ∧
      (header = none ↔
        (BlockByNumber sampleBackend (BlockRef.Numbered 1).toBlockNumber).1 = none)) ∧
    (∃ header,
      HeaderByNumber headerAheadBackend BlockRef.Pending.toBlockNumber =
        Result.returned (header, none) ∧
      header =
        ((BlockByNumber headerAheadBackend BlockRef.Pending.toBlockNumber).1).map Block.Header ∧
      (header = none ↔
        (BlockByNumber headerAheadBackend BlockRef.Pending.toBlockNumber).1 = none)) ∧
    (∃ header,
      HeaderByNumber headerAheadBackend BlockRef.Latest.toBlockNumber =
        Result.returned (header, none) ∧
      header =
        ((BlockByNumber headerAheadBackend BlockRef.Latest.toBlockNumber).1).map Block.Header ∧
      (header = none ↔
        (BlockByNumber headerAheadBackend BlockRef.Latest.toBlockNumber).1 = none)) :=
  ⟨(HeaderByNumber_eq_BlockByNumber_header sampleBackend
      (BlockRef.Numbered 1).toBlockNumber).2.1
      (fun h => absurd h (by decide)) (fun h => absurd h (by decide)) (fun _ _ => by decide),
   (HeaderByNumber_eq_BlockByNumber_header headerAheadBackend
      BlockRef.Pending.toBlockNumber).2.1
      (fun _ => by decide) (fun h => absurd h (by decide)) (fun h => absurd rfl h),
   (HeaderByNumber_eq_BlockByNumber_header headerAheadBackend
      BlockRef.Latest.toBlockNumber).2.1
      (fun h => absurd h (by decide)) (fun _ => by decide) (fun _ h => absurd rfl h)⟩

/-- C9, as stated, fails in its last part: on a miner that hands out no
block, `HeaderByNumber` for the pending reference panics on the nil block,
so that it returns no result and no nil error. -/
theorem HeaderByNumber_panics_without_block :
    idleMinerBackend.huc.miner.PendingBlock = none ∧
    HeaderByNumber idleMinerBackend BlockRef.Pending.toBlockNumber =
      Result.panicked nilDereference ∧
    ¬ ∃ header, HeaderByNumber idleMinerBackend BlockRef.Pending.toBlockNumber =
      Result.returned (header, none) := by
  refine ⟨rfl, by decide, ?_⟩
  rintro ⟨header, h⟩
  have hp : HeaderByNumber idleMinerBackend BlockRef.Pending.toBlockNumber =
      Result.panicked nilDereference := by decide
  rw [hp] at h
  cases h

/-- C9 (amended): for every reference other than pending and latest whose
height is not stored in the chain, `HeaderByNumber` and `BlockByNumber` each
return an absent result with a nil error, and `StateAndHeaderByNumber`
returns an absent state and an absent header with a nil error.
`BlockByNumber` returns a nil error for every reference.  `HeaderByNumber`
never returns an error that is not nil, and it returns for every reference
but the pending one on a miner that hands out no block and the latest one on
a chain that hands out no current block, where it panics. -/
theorem not_found_is_absence (b : EthApiBackend) (blockNr : BlockNumber) :
    (blockNr ≠ PendingBlockNumber → blockNr ≠ LatestBlockNumber →
      b.huc.blockchain.GetHeaderByNumber (toUint64 blockNr) = none →
      b.huc.blockchain.GetBlockByNumber (toUint64 blockNr) = none →
      HeaderByNumber b blockNr = Result.returned (none, none) ∧
      BlockByNumber b blockNr = (none, none) ∧
      StateAndHeaderByNumber b blockNr = Result.returned (none, none, none)) ∧
    (BlockByNumber b blockNr).2 = none ∧
    (∀ r, HeaderByNumber b blockNr = Result.returned r → r.2 = none) ∧
    ((∃ r, HeaderByNumber b blockNr = Result.returned r) ↔
      ¬ (blockNr = PendingBlockNumber ∧ b.huc.miner.PendingBlock = none) ∧
      ¬ (blockNr = LatestBlockNumber ∧ b.huc.blockchain.CurrentBlock = none)) ∧
    ((blockNr = PendingBlockNumber ∧ b.huc.miner.PendingBlock = none) ∨
      (blockNr = LatestBlockNumber ∧ b.huc.blockchain.CurrentBlock = none) →
      HeaderByNumber b blockNr = Result.panicked nilDereference) := by
  have hlp : ¬ LatestBlockNumber = PendingBlockNumber := by decide
  have hpl : ¬ PendingBlockNumber = LatestBlockNumber := by decide
  refine ⟨?_, ?_, ?_, ?_, ?_⟩
  · intro hp hl hh hb
    simp [StateAndHeaderByNumber, HeaderByNumber, BlockByNumber, hp, hl, hh, hb]
  · unfold BlockByNumber
    split_ifs <;> rfl
  · intro r hr
    unfold HeaderByNumber at hr
    by_cases hp : blockNr = PendingBlockNumber
    · subst hp
      cases hb : b.huc.miner.PendingBlock <;> simp [hb, headerOf] at hr
      subst hr
      rfl
    · by_cases hl : blockNr = LatestBlockNumber
      · subst hl
        cases hb : b.huc.blockchain.CurrentBlock <;> simp [hb, headerOf, hlp] at hr
        subst hr
        rfl
      · simp [hp, hl] at hr
        subst hr
        rfl
  · unfold HeaderByNumber
    by_cases hp : blockNr = PendingBlockNumber
    · subst hp
      cases hb : b.huc.miner.PendingBlock <;> simp [hb, headerOf, hpl]
    · by_cases hl : blockNr = LatestBlockNumber
      · subst hl
        cases hb : b.huc.blockchain.CurrentBlock <;> simp [hb, headerOf, hlp]
      · simp [hp, hl]
  · unfold HeaderByNumber
    rintro (⟨hp, hb⟩ | ⟨hl, hb⟩)
    · simp [hp, hb, headerOf]
    · subst hl
      simp [hb, headerOf, hlp]

/-- Witness for C9 (amended): `Numbered(5)` on the chain of three blocks. -/
theorem not_found_is_absence_witness :
    toUint64 (BlockRef.Numbered 5).toBlockNumber = 5 ∧
    sampleBackend.huc.blockchain.GetHeaderByNumber 2 ≠ none ∧
    HeaderByNumber sampleBackend (BlockRef.Numbered 5).toBlockNumber =
      Result.returned (none, none) ∧
    BlockByNumber sampleBackend (BlockRef.Numbered 5).toBlockNumber = (none, none) ∧
    StateAndHeaderByNumber sampleBackend (BlockRef.Numbered 5).toBlockNumber =
      Result.returned (none, none, none) :=
  ⟨by decide, by decide,
   (not_found_is_absence sampleBackend (BlockRef.Numbered 5).toBlockNumber).1
      (by decide) (by decide) (by decide) (by decide)⟩

/-- C10, as stated, fails in its first half: on a miner that hands out no
block the pending reference is not answered by `HeaderByNumber` nor by
`StateAndHeaderByNumber`, which panic on the nil block; `BlockByNumber`
returns the absent block. -/
theorem pending_not_answered_without_block :
    idleMinerBackend.huc.miner.Pending = (none, none) ∧
    BlockByNumber idleMinerBackend BlockRef.Pending.toBlockNumber = (none, none) ∧
    HeaderByNumber idleMinerBackend BlockRef.Pending.toBlockNumber =
      Result.panicked nilDereference ∧
    StateAndHeaderByNumber idleMinerBackend BlockRef.Pending.toBlockNumber =
      Result.panicked nilDereference ∧
    ¬ ∃ r, StateAndHeaderByNumber idleMinerBackend BlockRef.Pending.toBlockNumber =
      Result.returned r := by
  refine ⟨rfl, by decide, by decide, by decide, ?_⟩
  rintro ⟨r, h⟩
  have hp : StateAndHeaderByNumber idleMinerBackend BlockRef.Pending.toBlockNumber =
      Result.panicked nilDereference := by decide
  rw [hp] at h
  cases h

/-- C10 (amended): the outcome of a pending reference is decided by the miner
alone, whatever the chain is: `BlockByNumber` returns the miner's
speculative block; when the miner hands out a block, `HeaderByNumber`
returns its header and `StateAndHeaderByNumber` returns the miner's
speculative state with the header of the speculative block, each with a nil
error; when the miner hands out no block, the two panic.  For every other
reference the three operations do not read the miner: on two nodes that
differ in the miner only they end in the same way with equal results. -/
theorem pending_canonical_separation (b : EthApiBackend) (blockNr : BlockNumber) :
    (blockNr = PendingBlockNumber →
      ∀ bc : BlockChain,
        BlockByNumber (b.withChain bc) blockNr = (b.huc.miner.PendingBlock, none) ∧
        (∀ block, b.huc.miner.PendingBlock = some block →
          HeaderByNumber (b.withChain bc) blockNr =
            Result.returned (some block.Header, none)) ∧
        (b.huc.miner.PendingBlock = none →
          HeaderByNumber (b.withChain bc) blockNr = Result.panicked nilDereference) ∧
        (∀ block, b.huc.miner.Pending.1 = some block →
          StateAndHeaderByNumber (b.withChain bc) blockNr =
            Result.returned (b.huc.miner.Pending.2, some block.Header, none)) ∧
        (b.huc.miner.Pending.1 = none →
          StateAndHeaderByNumber (b.withChain bc) blockNr =
            Result.panicked nilDereference)) ∧
    (blockNr ≠ PendingBlockNumber →
      ∀ m : Miner,
        HeaderByNumber (b.withMiner m) blockNr = HeaderByNumber b blockNr ∧
        BlockByNumber (b.withMiner m) blockNr = BlockByNumber b blockNr ∧
        StateAndHeaderByNumber (b.withMiner m) blockNr = StateAndHeaderByNumber b blockNr) := by
  constructor
  · intro hp bc
    subst hp
    refine ⟨?_, ?_, ?_, ?_, ?_⟩
    · simp [BlockByNumber, EthApiBackend.withChain]
    · intro block hb
      simp [HeaderByNumber, EthApiBackend.withChain, hb, headerOf]
    · intro hb
      simp [HeaderByNumber, EthApiBackend.withChain, hb, headerOf]
    · intro block hb
      rcases hm : b.huc.miner.Pending with ⟨blk, st⟩
      rw [hm] at hb
      simp only at hb
      subst hb
      simp [StateAndHeaderByNumber, EthApiBackend.withChain, hm, headerOf]
    · intro hb
      rcases hm : b.huc.miner.Pending with ⟨blk, st⟩
      rw [hm] at hb
      simp only at hb
      subst hb
      simp [StateAndHeaderByNumber, EthApiBackend.withChain, hm, headerOf]
  · intro hp m
    simp [StateAndHeaderByNumber, HeaderByNumber, BlockByNumber, hp, EthApiBackend.withMiner,
      HappyUC.BlockChain]

/-- Witness for C10 (amended): the pending reference on the sample node over
another chain, and the latest reference and height 1 under another miner. -/
theorem pending_canonical_separation_witness :
    StateAndHeaderByNumber (sampleBackend.withChain headerAheadChain)
        BlockRef.Pending.toBlockNumber =
      Result.returned (some 203, some { Number := 3, Root := 203, Extra := 7 }, none) ∧
    HeaderByNumber (idleMinerBackend.withChain headerAheadChain)
        BlockRef.Pending.toBlockNumber = Result.panicked nilDereference ∧
    StateAndHeaderByNumber (sampleBackend.withMiner otherMiner) BlockRef.Latest.toBlockNumber =
      StateAndHeaderByNumber sampleBackend BlockRef.Latest.toBlockNumber ∧
    HeaderByNumber (sampleBackend.withMiner otherMiner) (BlockRef.Numbered 1).toBlockNumber =
      HeaderByNumber sampleBackend (BlockRef.Numbered 1).toBlockNumber :=
  ⟨((pending_canonical_separation sampleBackend BlockRef.Pending.toBlockNumber).1 rfl
      headerAheadChain).2.2.2.1
      { header := { Number := 3, Root := 203, Extra := 7 }, body := 33 } rfl,
   ((pending_canonical_separation idleMinerBackend BlockRef.Pending.toBlockNumber).1 rfl
      headerAheadChain).2.2.1 rfl,
   ((pending_canonical_separation sampleBackend BlockRef.Latest.toBlockNumber).2
      (by decide) otherMiner).2.2,
   ((pending_canonical_separation sampleBackend (BlockRef.Numbered 1).toBlockNumber).2
      (by decide) otherMiner).1⟩

/-! ## Construction -/

/-- C11: genesis-error handling in `New`, for every configuration whose sync
mode is accepted and whose database opens, so that genesis setup is reached.
If genesis setup reports a compatibility error and the version check, the
chain construction and the protocol-manager construction succeed, `New`
returns a node and no error; the calls it made are those of `rewindCalls`:
one rewind, to the height the error names, right after the chain is
constructed, followed by one write of the chain configuration returned by
genesis setup under the genesis hash; the chain of the node is the rewound
one.  If genesis setup reports an error of another kind, `New` returns that
error and no node, and has made no rewind and no configuration write.  If
genesis setup reports no error, `New` makes no rewind and no configuration
write, however its later steps end. -/
theorem New_genesis_error_handling (ctx : ServiceContext) (config : Config) (pkg : Packages)
    (chainDb : Database)
    (hlight : config.SyncMode ≠ LightSync) (hvalid : config.SyncMode.IsValid = true)
    (hdb : CreateDB ctx config "chaindata" = .ok chainDb) :
    (∀ compat chain acceptTxs,
      (pkg.SetupGenesisBlock chainDb config.Genesis).2.2 = some (.configCompat compat) →
      (config.SkipBcVersionCheck = true ∨
        pkg.GetBlockChainVersion chainDb = pkg.BlockChainVersion ∨
        pkg.GetBlockChainVersion chainDb = 0) →
      pkg.NewBlockChain chainDb (pkg.SetupGenesisBlock chainDb config.Genesis).1
        (CreateConsensusEngine ctx config.Ethash
          (pkg.SetupGenesisBlock chainDb config.Genesis).1 chainDb) = .ok chain →
      pkg.NewProtocolManager (pkg.SetupGenesisBlock chainDb config.Genesis).1
        config.SyncMode config.NetworkId = .ok acceptTxs →
      (New ctx config pkg).err = none ∧
      (∃ eth, (New ctx config pkg).eth = some eth ∧
        eth.blockchain = pkg.SetHead chain compat.RewindTo ∧
        eth.chainConfig = (pkg.SetupGenesisBlock chainDb config.Genesis).1) ∧
      (New ctx config pkg).calls =
        rewindCalls ctx config pkg (pkg.SetupGenesisBlock chainDb config.Genesis).1
          (pkg.SetupGenesisBlock chainDb config.Genesis).2.1 compat ∧
      (New ctx config pkg).calls.filter Effect.isSetHead =
        [Effect.blockchainSetHead compat.RewindTo] ∧
      (New ctx config pkg).calls.filter Effect.isWriteChainConfig =
        [Effect.writeChainConfig (pkg.SetupGenesisBlock chainDb config.Genesis).2.1
          (pkg.SetupGenesisBlock chainDb config.Genesis).1]) ∧
    (∀ e, (pkg.SetupGenesisBlock chainDb config.Genesis).2.2 = some (.other e) →
      (New ctx config pkg).err = some e ∧ (New ctx config pkg).eth = none ∧
      (New ctx config pkg).calls.filter Effect.isSetHead = [] ∧
      (New ctx config pkg).calls.filter Effect.isWriteChainConfig = []) ∧
    ((pkg.SetupGenesisBlock chainDb config.Genesis).2.2 = none →
      (New ctx config pkg).calls.filter Effect.isSetHead = [] ∧
      (New ctx config pkg).calls.filter Effect.isWriteChainConfig = []) := by
  have hvalid2 : SyncMode.IsValid config.SyncMode = true := hvalid
  rcases hg : pkg.SetupGenesisBlock chainDb config.Genesis with ⟨cfg, hash, gerr⟩
  refine ⟨?_, ?_, ?_⟩
  · intro compat chain acc hge hver hbc hpm
    simp only at hge hbc hpm
    subst hge
    unfold New rewindCalls
    rcases hver with hskip | hv | hv
    · cases hj : decide (config.TxPoolJournal = "") <;> cases hgp : config.GPODefault <;>
        simp_all [Id.run, asConfigCompat, Effect.isSetHead, Effect.isWriteChainConfig]
    · cases hskip : config.SkipBcVersionCheck <;>
        cases hj : decide (config.TxPoolJournal = "") <;> cases hgp : config.GPODefault <;>
        simp_all [Id.run, asConfigCompat, Effect.isSetHead, Effect.isWriteChainConfig]
    · cases hskip : config.SkipBcVersionCheck <;>
        cases hj : decide (config.TxPoolJournal = "") <;> cases hgp : config.GPODefault <;>
        simp_all [Id.run, asConfigCompat, Effect.isSetHead, Effect.isWriteChainConfig]
  · intro e hge
    simp only at hge
    subst hge
    unfold New
    simp [Id.run, hlight, hvalid2, hdb, hg, asConfigCompat, GenesisErr.toError,
      Effect.isSetHead, Effect.isWriteChainConfig]
  · intro hge
    simp only at hge
    subst hge
    unfold New
    simp only [Id.run, hlight, hvalid2, hdb, hg, asConfigCompat]
    cases hskip : config.SkipBcVersionCheck <;>
      cases hbc : pkg.NewBlockChain chainDb cfg
        (CreateConsensusEngine ctx config.Ethash cfg chainDb) <;>
      cases hpm : pkg.NewProtocolManager cfg config.SyncMode config.NetworkId <;>
      by_cases hv : pkg.GetBlockChainVersion chainDb ≠ pkg.BlockChainVersion ∧
        pkg.GetBlockChainVersion chainDb ≠ 0 <;>
      by_cases hj : config.TxPoolJournal = "" <;> cases hgp : config.GPODefault <;>
      simp [hv, hj, Effect.isSetHead, Effect.isWriteChainConfig]

/-- Witness for C11: a compatibility error that asks for a rewind to height 2,
an error of another kind, and no error, every other step succeeding. -/
theorem New_genesis_error_handling_witness :
    ((New sampleContext sampleConfig (samplePackages (some (.configCompat sampleCompat)))).err
        = none ∧
     (New sampleContext sampleConfig (samplePackages (some (.configCompat sampleCompat)))).calls
        = [Effect.upgradeDeduplicateData, Effect.setupGenesisBlock,
           Effect.writeBlockChainVersion 3, Effect.newBlockChain, Effect.blockchainSetHead 2,
           Effect.writeChainConfig 0xABC { Clique := none }, Effect.bloomIndexerStart,
           Effect.newTxPool "", Effect.newProtocolManager, Effect.newMiner,
           Effect.minerSetExtra [0xd8, 0x83, 0x01, 0x08, 0x02, 0x84, 0x67, 0x68, 0x75, 0x63],
           Effect.newOracle none]) ∧
    ((New sampleContext sampleConfig
        (samplePackages (some (.other "incompatible genesis block")))).err
        = some "incompatible genesis block" ∧
     (New sampleContext sampleConfig
        (samplePackages (some (.other "incompatible genesis block")))).calls.filter
        Effect.isSetHead = []) ∧
    (New sampleContext sampleConfig (samplePackages none)).calls.filter Effect.isSetHead = [] :=
  ⟨⟨((New_genesis_error_handling sampleContext sampleConfig
        (samplePackages (some (.configCompat sampleCompat))) 7 (by decide) rfl rfl).1
        sampleCompat sampleChain 0 rfl (Or.inr (Or.inl rfl)) rfl rfl).1,
    ((New_genesis_error_handling sampleContext sampleConfig
        (samplePackages (some (.configCompat sampleCompat))) 7 (by decide) rfl rfl).1
        sampleCompat sampleChain 0 rfl (Or.inr (Or.inl rfl)) rfl rfl).2.2.1⟩,
   ⟨((New_genesis_error_handling sampleContext sampleConfig
        (samplePackages (some (.other "incompatible genesis block"))) 7
        (by decide) rfl rfl).2.1 "incompatible genesis block" rfl).1,
    ((New_genesis_error_handling sampleContext sampleConfig
        (samplePackages (some (.other "incompatible genesis block"))) 7
        (by decide) rfl rfl).2.1 "incompatible genesis block" rfl).2.2.1⟩,
   ((New_genesis_error_handling sampleContext sampleConfig (samplePackages none) 7
        (by decide) rfl rfl).2.2 rfl).1⟩

/-- C12: for every byte string `extra`, whatever the maximum and the default
payload are, the payload `makeExtraData` returns is at most the maximum long;
a non-empty `extra` within the maximum is returned unchanged; an `extra`
longer than the maximum is dropped, the result being empty (the function has
no error result). -/
theorem makeExtraData_cap (maximumExtraDataSize : Nat) (defaultExtra extra : List Byte) :
    (makeExtraData maximumExtraDataSize defaultExtra extra).length ≤ maximumExtraDataSize ∧
    (extra ≠ [] → extra.length ≤ maximumExtraDataSize →
      makeExtraData maximumExtraDataSize defaultExtra extra = extra) ∧
    (extra.length > maximumExtraDataSize →
      makeExtraData maximumExtraDataSize defaultExtra extra = []) := by
  refine ⟨?_, ?_, ?_⟩
  · unfold makeExtraData
    by_cases h0 : extra.length = 0
    · by_cases h1 : defaultExtra.length > maximumExtraDataSize
      · simp [Id.run, h0, h1]
      · simp only [Id.run, h0, h1]
        simp
        omega
    · by_cases h1 : extra.length > maximumExtraDataSize
      · simp [Id.run, h0, h1]
      · simp only [Id.run, h0, h1]
        simp
        omega
  · intro hne hle
    have h0 : ¬ extra.length = 0 := by
      intro h
      exact hne (List.length_eq_zero.mp h)
    have h1 : ¬ extra.length > maximumExtraDataSize := by omega
    unfold makeExtraData
    simp only [Id.run, h0, h1]
    simp
  · intro hgt
    have h0 : ¬ extra.length = 0 := by omega
    unfold makeExtraData
    simp only [Id.run, h0]
    simp [hgt]

/-- Witness for C12: with a maximum of 32 bytes, a payload of three bytes is
kept and a payload of 33 bytes is dropped. -/
theorem makeExtraData_cap_witness :
    makeExtraData 32 [0xd8, 0x83] [1, 2, 3] = [1, 2, 3] ∧
    makeExtraData 32 [0xd8, 0x83] (List.replicate 33 7) = [] :=
  ⟨(makeExtraData_cap 32 [0xd8, 0x83] [1, 2, 3]).2.1 (by decide) (by decide),
   (makeExtraData_cap 32 [0xd8, 0x83] (List.replicate 33 7)).2.2 (by decide)⟩

end Huc
